import Mathlib

/-!
Verification of the OpenNeuro-to-S3 transfer pipeline
(`src/openneuro-s3-downloader.py`) against its design specification.

The Python program is shallowly embedded: every external effect
(the GraphQL request, `session.get`, `response.content.read`, and the
boto3 multipart-upload calls) is modelled by an injected outcome in an
environment record, and each function of the program becomes a Lean
function from that environment to the trace of calls it issues together
with its result.  Python exceptions are modelled by `Except`/`Outcome`
values; `asyncio.CancelledError`, which derives from `BaseException` and
is therefore *not* caught by `except Exception:` handlers, is the
distinguished `Outcome.cancelled` value.
-/

namespace OpenNeuro

/-- Byte strings are modelled as lists of byte values. -/
abbrev ByteStr := List Nat

/-- The Python exception values this program can raise or observe. -/
inductive PyErr where
  /-- `IndexError`, raised by `file.urls[0]` on an empty list. -/
  | indexError : PyErr
  /-- the `Exception(f"... HTTP {status}")` raised on a non-200 status. -/
  | httpError (status : Nat) : PyErr
  /-- any other ordinary `Exception`, identified by its message. -/
  | exc (msg : String) : PyErr
deriving DecidableEq

/-- Outcome of awaiting a coroutine: a value, an ordinary `Exception`,
or task cancellation (`CancelledError`, not an `Exception`). -/
inductive Outcome (α : Type) where
  | ok (a : α) : Outcome α
  | exc (e : PyErr) : Outcome α
  | cancelled : Outcome α
deriving DecidableEq

/-- The manifest record decoded from `{filename, size, urls, directory}`
(the `OpenNeuroFile` dataclass). -/
structure OpenNeuroFile where
  filename : String
  size : Nat
  urls : List String
  directory : Bool
deriving DecidableEq

/-- Does the character list `s` begin with `pat`? -/
def beginsWith : List Char → List Char → Bool
  | [], _ => true
  | _ :: _, [] => false
  | p :: ps, c :: cs => p == c && beginsWith ps cs

/-- Does the character list `s` contain `pat` as a contiguous run?
This is Python's `pat in s` on strings. -/
def containsSeq (pat : List Char) : List Char → Bool
  | [] => beginsWith pat []
  | c :: cs => beginsWith pat (c :: cs) || containsSeq pat cs

/-- Python's `'s3://' in url`. -/
def hasS3 (u : String) : Bool := containsSeq "s3://".data u.data

/-- The URL selection on line 117:
`next((url for url in file.urls if 's3://' in url), file.urls[0])`.
Python evaluates the default argument `file.urls[0]` eagerly, so an
empty list raises `IndexError` (modelled by `none`) before `next` runs. -/
def chooseUrl (urls : List String) : Option String :=
  match urls with
  | [] => none
  | u0 :: _ =>
    match urls.find? (fun u => hasS3 u) with
    | some u => some u
    | none => some u0

/-- 1 MiB, the `CHUNK_SIZE` class constant. -/
def CHUNK_SIZE : Nat := 1024 * 1024

/-- A completed part as submitted to `complete_multipart_upload`:
`{'PartNumber': ..., 'ETag': ...}`. -/
structure S3Part where
  partNumber : Nat
  eTag : String
deriving DecidableEq

/-- The externally visible calls issued by one run of `_stream_to_s3`,
in program order. -/
inductive Op where
  /-- `create_multipart_upload(...)` -/
  | createUpload : Op
  /-- `session.get(download_url, ...)` -/
  | getRequest (url : String) : Op
  /-- `response.content.read(limit)` -/
  | readCall (limit : Nat) : Op
  /-- `upload_part(..., PartNumber=partNumber, Body=body)` -/
  | uploadPartOp (partNumber : Nat) (body : ByteStr) : Op
  /-- `complete_multipart_upload(..., MultipartUpload={'Parts': parts})` -/
  | completeUpload (parts : List S3Part) : Op
  /-- `abort_multipart_upload(...)` -/
  | abortUpload : Op
deriving DecidableEq

/-- Injected outcomes of the external calls made during one run of
`_stream_to_s3`: what the network and the object store answer.  boto3
calls are synchronous, so they can fail but not be cancelled (`Except`);
the two awaited aiohttp operations can also be cancelled (`Outcome`).
If `reads` is exhausted the source reports end of stream (empty read). -/
structure TransferEnv where
  file : OpenNeuroFile
  createResult : Except PyErr String
  getStatus : Outcome Nat
  reads : List (Outcome ByteStr)
  uploadResults : Nat → Except PyErr String
  completeResult : Except PyErr Unit
  abortResult : Except PyErr Unit

/-- The `while True` loop of `_stream_to_s3` (lines 134–154): read a
chunk, stop on an empty read, otherwise upload it as the next part and
append `{'PartNumber': part_number, 'ETag': ...}` to `parts`. -/
def relayLoop (ups : Nat → Except PyErr String) :
    List (Outcome ByteStr) → Nat → List S3Part → List Op × Outcome (List S3Part)
  | [], _, parts => ([Op.readCall CHUNK_SIZE], Outcome.ok parts)
  | r :: rs, pn, parts =>
    match r with
    | .cancelled => ([Op.readCall CHUNK_SIZE], Outcome.cancelled)
    | .exc e => ([Op.readCall CHUNK_SIZE], Outcome.exc e)
    | .ok chunk =>
      if chunk.isEmpty then ([Op.readCall CHUNK_SIZE], Outcome.ok parts)
      else
        match ups pn with
        | .error e => ([Op.readCall CHUNK_SIZE, Op.uploadPartOp pn chunk], Outcome.exc e)
        | .ok etag =>
          let rest := relayLoop ups rs (pn + 1) (parts ++ [⟨pn, etag⟩])
          (Op.readCall CHUNK_SIZE :: Op.uploadPartOp pn chunk :: rest.1, rest.2)

/-- The body of the `try:` block of `_stream_to_s3` after the session is
created: issue the GET, fail on a non-200 status, run the relay loop,
then call `complete_multipart_upload` with the accumulated parts. -/
def tryBody (env : TransferEnv) (url : String) : List Op × Outcome Unit :=
  match env.getStatus with
  | .cancelled => ([Op.getRequest url], Outcome.cancelled)
  | .exc e => ([Op.getRequest url], Outcome.exc e)
  | .ok status =>
    if status = 200 then
      match relayLoop env.uploadResults env.reads 1 [] with
      | (tr, Outcome.cancelled) => (Op.getRequest url :: tr, Outcome.cancelled)
      | (tr, Outcome.exc e) => (Op.getRequest url :: tr, Outcome.exc e)
      | (tr, Outcome.ok parts) =>
        (Op.getRequest url :: (tr ++ [Op.completeUpload parts]),
          match env.completeResult with
          | .error e => Outcome.exc e
          | .ok _ => Outcome.ok ())
    else ([Op.getRequest url], Outcome.exc (PyErr.httpError status))

/-- One run of `_stream_to_s3` (lines 107–178): skip directories, choose
the download URL (`IndexError` on an empty list, before the `try:`),
create the multipart upload, run the `try:` body, and on any ordinary
`Exception` issue `abort_multipart_upload` (whose own failure is
swallowed) before re-raising.  `CancelledError` is not an `Exception`,
so the `except Exception:` handler does not run for it and no abort is
issued. -/
def streamToS3 (env : TransferEnv) : List Op × Outcome Unit :=
  if env.file.directory then ([], Outcome.ok ())
  else
    match chooseUrl env.file.urls with
    | none => ([], Outcome.exc PyErr.indexError)
    | some url =>
      match env.createResult with
      | .error e => ([Op.createUpload], Outcome.exc e)
      | .ok _ =>
        match tryBody env url with
        | (tr, Outcome.ok u) => (Op.createUpload :: tr, Outcome.ok u)
        | (tr, Outcome.cancelled) => (Op.createUpload :: tr, Outcome.cancelled)
        | (tr, Outcome.exc e) =>
          (Op.createUpload :: (tr ++ [Op.abortUpload]), Outcome.exc e)

/-- Number of non-empty chunks the relay loop consumes before its normal
end-of-stream termination (an empty read, an exhausted source, or — for
the purposes of this count — any abnormal stop). -/
def chunksRead : List (Outcome ByteStr) → Nat
  | [] => 0
  | Outcome.ok c :: rs => if c.isEmpty then 0 else 1 + chunksRead rs
  | Outcome.exc _ :: _ => 0
  | Outcome.cancelled :: _ => 0

/-- Terminal calls of the multipart-upload protocol. -/
def isTerminalOp : Op → Bool
  | Op.completeUpload _ => true
  | Op.abortUpload => true
  | _ => false

/-- Is this op a `complete_multipart_upload` call? -/
def isCompleteOp : Op → Bool
  | Op.completeUpload _ => true
  | _ => false

/-- Is this op an `abort_multipart_upload` call? -/
def isAbortOp : Op → Bool
  | Op.abortUpload => true
  | _ => false

/-- Ops that do not touch the session state: reads, part uploads, and
the GET request. -/
def plainOp : Op → Bool
  | Op.readCall _ => true
  | Op.uploadPartOp _ _ => true
  | Op.getRequest _ => true
  | _ => false

/-- A trace fragment consisting only of session-neutral ops. -/
def plainOps (tr : List Op) : Prop := ∀ op ∈ tr, plainOp op = true

/-- The `UploadSession` states of the spec's data model (`Completing`
is transient and not observable between calls, so it is elided). -/
inductive SessState where
  | NoSession : SessState
  | Open : SessState
  | Completed : SessState
  | Aborted : SessState
deriving DecidableEq

/-- Did the injected `complete_multipart_upload` call succeed? -/
def completeOk (env : TransferEnv) : Bool :=
  match env.completeResult with
  | Except.ok _ => true
  | Except.error _ => false

/-- Session-state transition for one issued call.  A `complete` call
that failed remotely leaves the session in an indeterminate,
non-terminal state, modelled as still `Open` (the caller must abort). -/
def applySessOp (cOk : Bool) (s : SessState) (op : Op) : SessState :=
  match op with
  | Op.createUpload => SessState.Open
  | Op.completeUpload _ => if cOk then SessState.Completed else SessState.Open
  | Op.abortUpload => SessState.Aborted
  | _ => s

/-- The session state after the whole `_stream_to_s3` trace. -/
def finalSess (env : TransferEnv) : SessState :=
  (streamToS3 env).1.foldl (applySessOp (completeOk env)) SessState.NoSession

/-- A transfer cancelled while awaiting the first chunk read: the
`except Exception:` handler does not run for `CancelledError`. -/
def cancelEnv : TransferEnv :=
  { file := ⟨"f.nii", 5, ["s3://b/f.nii"], false⟩
    createResult := Except.ok "uid"
    getStatus := Outcome.ok 200
    reads := [Outcome.cancelled]
    uploadResults := fun _ => Except.ok "e"
    completeResult := Except.ok ()
    abortResult := Except.ok () }

/-- A concrete fault-free transfer for the amended terminal-call
theorem: one chunk, successful completion. -/
def straightEnv : TransferEnv :=
  { file := ⟨"g.nii", 3, ["s3://b/g.nii"], false⟩
    createResult := Except.ok "uid"
    getStatus := Outcome.ok 200
    reads := [Outcome.ok [1, 2, 3], Outcome.ok []]
    uploadResults := fun _ => Except.ok "e"
    completeResult := Except.ok ()
    abortResult := Except.ok () }

/-- The trace of a fault-free relay of the non-empty chunks `cs`: each
chunk is read and then forwarded as the next part before the next read
is issued, and the final read observes end of stream. -/
def seqTrace (pn : Nat) : List ByteStr → List Op
  | [] => [Op.readCall CHUNK_SIZE]
  | c :: cs => Op.readCall CHUNK_SIZE :: Op.uploadPartOp pn c :: seqTrace (pn + 1) cs

/-- The parts accumulated by a fault-free relay of the chunks `cs`,
numbered consecutively from `pn`. -/
def partsFor (ups : Nat → Except PyErr String) (pn : Nat) : List ByteStr → List S3Part
  | [] => []
  | _ :: cs =>
    match ups pn with
    | Except.ok t => ⟨pn, t⟩ :: partsFor ups (pn + 1) cs
    | Except.error _ => []

/-- A transfer whose GET answers a non-success status. -/
def httpFailEnv : TransferEnv :=
  { file := ⟨"h.nii", 9, ["s3://b/h.nii"], false⟩
    createResult := Except.ok "uid"
    getStatus := Outcome.ok 404
    reads := [Outcome.ok [1]]
    uploadResults := fun _ => Except.ok "e"
    completeResult := Except.ok ()
    abortResult := Except.ok () }

/-- The retry loop of `_graphql_query` (lines 57–83), with the attempt
bodies abstracted as `op`: `max_retries = 3`, `retry_delay` starting at
1 and doubling after each failed non-final attempt.  `rem` is the number
of loop iterations left (`max_retries - attempt`); the returned list
records the `asyncio.sleep` delays in order.  On the final attempt
(`attempt == max_retries - 1`) the error is re-raised as is. -/
def retryGo {α : Type} (op : Nat → Except PyErr α) :
    Nat → Nat → Nat → List Nat × Except PyErr α
  | 0, _, _ => ([], Except.error (PyErr.exc "loop body unreachable"))
  | rem + 1, attempt, delay =>
    match op attempt with
    | Except.ok a => ([], Except.ok a)
    | Except.error e =>
      match rem with
      | 0 => ([], Except.error e)
      | _ + 1 =>
        let p := retryGo op rem (attempt + 1) (delay * 2)
        (delay :: p.1, p.2)

/-- `_graphql_query`'s retry protocol: three attempts, initial delay 1. -/
def graphqlQuery {α : Type} (op : Nat → Except PyErr α) :
    List Nat × Except PyErr α :=
  retryGo op 3 0 1

/-- A minimal JSON value, as produced by `response.json()`. -/
inductive JVal where
  | str (s : String) : JVal
  | num (n : Int) : JVal
  | boolean (b : Bool) : JVal
  | null : JVal
  | arr (xs : List JVal) : JVal
  | obj (fields : List (String × JVal)) : JVal

/-- Python dict key lookup on a decoded JSON object's field list. -/
def lookupField : List (String × JVal) → String → Option JVal
  | [], _ => none
  | (k', v) :: rest, k => if k' = k then some v else lookupField rest k

/-- Python `d[k]` on a JSON value: only objects can be indexed by a
string key; anything else raises (`TypeError`/`KeyError`), modelled as
`none`. -/
def jGet : JVal → String → Option JVal
  | JVal.obj fields, k => lookupField fields k
  | _, _ => none

/-- Python's `'errors' in result` (key presence, whatever the value). -/
def hasErrs (body : JVal) : Bool := (jGet body "errors").isSome

/-- `OpenNeuroFile(**f)` succeeds exactly when the keyword set is
exactly `{filename, size, urls, directory}` (a dataclass checks keys,
not value types); with four distinct required names present in a
four-element key list, each occurs exactly once. -/
def exactKeys (ks : List String) : Bool :=
  ks.contains "filename" && ks.contains "size" && ks.contains "urls" &&
    ks.contains "directory" && ks.length == 4

/-- A manifest record exactly as `OpenNeuroFile(**f)` builds it: the
four fields are bound with no type validation. -/
structure RawFile where
  filename : JVal
  size : JVal
  urls : JVal
  directory : JVal

/-- One `OpenNeuroFile(**f)` construction. -/
def decodeFile (v : JVal) : Option RawFile :=
  match v with
  | JVal.obj fields =>
    if exactKeys (fields.map Prod.fst) then
      match lookupField fields "filename", lookupField fields "size",
          lookupField fields "urls", lookupField fields "directory" with
      | some a, some b, some c, some d => some ⟨a, b, c, d⟩
      | _, _, _, _ => none
    else none
  | _ => none

/-- The decoding pipeline applied to a successful GraphQL response:
`result['data']['dataset']['draft']['files']`, then one
`OpenNeuroFile(**f)` per entry (lines 102–105). -/
def decodeManifest (body : JVal) : Option (List RawFile) :=
  match jGet body "data" with
  | none => none
  | some d =>
    match jGet d "dataset" with
    | none => none
    | some ds =>
      match jGet ds "draft" with
      | none => none
      | some dr =>
        match jGet dr "files" with
        | none => none
        | some (JVal.arr xs) => xs.mapM decodeFile
        | some _ => none

/-- A GraphQL response: HTTP status and decoded JSON body. -/
structure GResp where
  status : Nat
  body : JVal

/-- One attempt of the manifest fetch (the `try:` body of
`_graphql_query`, lines 62–76, composed with the decode step of
`_get_dataset_files`): non-200 status raises, an `errors` key raises,
and the remaining payload must decode into the FileRecord shape. -/
def singleAttempt (r : GResp) : Except PyErr (List RawFile) :=
  if r.status ≠ 200 then Except.error (PyErr.httpError r.status)
  else if hasErrs r.body then Except.error (PyErr.exc "GraphQL query failed")
  else
    match decodeManifest r.body with
    | some fs => Except.ok fs
    | none => Except.error (PyErr.exc "manifest decode failed")

/-- A well-formed manifest response with one file record. -/
def manifestResp : GResp :=
  { status := 200
    body := JVal.obj [("data", JVal.obj [("dataset", JVal.obj [("draft",
      JVal.obj [("files", JVal.arr [JVal.obj [("filename", JVal.str "a.txt"),
        ("size", JVal.num 3), ("urls", JVal.arr [JVal.str "s3://x"]),
        ("directory", JVal.boolean false)]])])])])] }

/-- `await asyncio.gather(*tasks)` **without** `return_exceptions`: the
first abnormal task outcome propagates to the awaiting coroutine; the
remaining outcomes are discarded. -/
def gatherResults : List (Outcome Unit) → Outcome Unit
  | [] => Outcome.ok ()
  | Outcome.ok _ :: rs => gatherResults rs
  | Outcome.exc e :: _ => Outcome.exc e
  | Outcome.cancelled :: _ => Outcome.cancelled

/-- `download_dataset` (lines 180–200): fetch the manifest (its failure
is re-raised to the caller), schedule one `upload_with_semaphore` task
per non-directory file, and `await asyncio.gather(*tasks)`.  The
`except Exception:` block only logs and re-raises, so it is the
identity on the outcome.  The function returns `None` on success —
there is no aggregation of per-file results. -/
def downloadDataset (manifest : Except PyErr (List OpenNeuroFile))
    (outcome : OpenNeuroFile → Outcome Unit) : Outcome Unit :=
  match manifest with
  | Except.error e => Outcome.exc e
  | Except.ok files =>
    gatherResults ((files.filter (fun f => !f.directory)).map outcome)

/-- The orchestrator's scheduling state: tasks not yet started, tasks
currently inside the `async with semaphore:` block, tasks finished, and
the semaphore's free slots (`asyncio.Semaphore(10)`). -/
structure OrchState where
  pending : Nat
  active : Nat
  done : Nat
  sem : Nat
deriving DecidableEq

/-- The two scheduler transitions of `download_dataset`'s task pool: a
pending task acquires the semaphore (only possible when a slot is
free), or an active task finishes and releases its slot.  The semaphore
is the only shared state between tasks — no transition reads or writes
anything else. -/
inductive OrchStep : OrchState → OrchState → Prop
  | start (p a d s : Nat) : OrchStep ⟨p + 1, a, d, s + 1⟩ ⟨p, a + 1, d, s⟩
  | finish (p a d s : Nat) : OrchStep ⟨p, a + 1, d, s⟩ ⟨p, a, d + 1, s + 1⟩

/-- Initial state for a dataset of `n` scheduled file tasks:
`asyncio.Semaphore(10)` starts with 10 free slots. -/
def orchInit (n : Nat) : OrchState := ⟨n, 0, 0, 10⟩

/-- States the task pool can reach from the initial state. -/
def OrchReachable (n : Nat) (s : OrchState) : Prop :=
  Relation.ReflTransGen OrchStep (orchInit n) s

theorem chooseUrl_of_ne_nil (urls : List String) (h : urls ≠ []) :
    ∃ u, chooseUrl urls = some u := by
  match urls with
  | [] => exact absurd rfl h
  | u0 :: rest =>
    unfold chooseUrl
    rcases hf : (u0 :: rest).find? (fun u => hasS3 u) with _ | u
    · exact ⟨u0, rfl⟩
    · exact ⟨u, rfl⟩

/-- Claim C7: for a non-empty `urls` list, the chosen download URL is the
first entry containing the direct-storage marker `s3://` when one exists,
and the first entry of the list otherwise.  The decomposition
`urls = pre ++ u :: post` with the stated side conditions pins the choice
uniquely, so it is deterministic.  (An empty list never reaches `next`:
it raises `IndexError`, see the claim about empty `urls`.) -/
theorem C7_url_preference (urls : List String) (h : urls ≠ []) :
    ∃ u pre post,
      chooseUrl urls = some u ∧
      urls = pre ++ u :: post ∧
      (∀ v ∈ pre, hasS3 v = false) ∧
      ((∃ v ∈ urls, hasS3 v = true) → hasS3 u = true) ∧
      (hasS3 u = false → pre = []) := by
  induction urls with
  | nil => exact absurd rfl h
  | cons a as ih =>
    by_cases ha : hasS3 a = true
    · refine ⟨a, [], as, ?_, rfl, by simp, fun _ => ha, fun hfa => absurd ha (by simp [hfa])⟩
      unfold chooseUrl
      rw [List.find?_cons_of_pos _ (by simpa using ha)]
    · have ha' : hasS3 a = false := by simpa using ha
      cases hf : as.find? (fun u => hasS3 u) with
      | none =>
        -- no entry of `as` contains s3://, so the head is chosen
        have hnone : ∀ v ∈ as, hasS3 v = false := by
          intro v hv
          have := List.find?_eq_none.mp hf v hv
          simpa using this
        refine ⟨a, [], as, ?_, rfl, by simp, ?_, fun _ => rfl⟩
        · unfold chooseUrl
          rw [List.find?_cons_of_neg _ (by simpa using ha), hf]
        · rintro ⟨v, hv, hs⟩
          rcases List.mem_cons.mp hv with rfl | hv'
          · exact absurd hs (by simp [ha'])
          · exact absurd hs (by simp [hnone v hv'])
      | some u =>
        -- some entry of `as` contains s3://; it is chosen, and by the
        -- inductive hypothesis it is the first such entry
        have hasne : as ≠ [] := by
          intro hnil; rw [hnil] at hf; simp at hf
        obtain ⟨u', pre', post', hch', hdec', hpre', hex', _⟩ := ih hasne
        have hu' : u' = u := by
          match as, hasne with
          | b :: bs, _ =>
            unfold chooseUrl at hch'
            rw [hf] at hch'
            exact (Option.some.inj (show some u = some u' from hch')).symm
        have hf' : as.find? (fun u => hasS3 u) = some u' := by rw [hf, hu']
        have hs3u : hasS3 u' = true := by
          have := List.find?_some hf'
          simpa using this
        refine ⟨u', a :: pre', post', ?_, by rw [hdec']; rfl, ?_, fun _ => hs3u,
          fun hfa => absurd hs3u (by simp [hfa])⟩
        · unfold chooseUrl
          rw [List.find?_cons_of_neg _ (by simpa using ha), hf']
        · intro v hv
          rcases List.mem_cons.mp hv with rfl | hv'
          · exact ha'
          · exact hpre' v hv'

/-- Concrete instance of the URL-preference rule: in
`["https://a", "https://s3://b", "s3://c"]` the chosen URL is the second
entry, the first one containing `s3://`. -/
theorem C7_witness :
    ∃ u pre post,
      chooseUrl ["https://a", "https-s3://b", "s3://c"] = some u ∧
      ["https://a", "https-s3://b", "s3://c"] = pre ++ u :: post ∧
      (∀ v ∈ pre, hasS3 v = false) ∧
      ((∃ v ∈ ["https://a", "https-s3://b", "s3://c"], hasS3 v = true) → hasS3 u = true) ∧
      (hasS3 u = false → pre = []) :=
  C7_url_preference ["https://a", "https-s3://b", "s3://c"] (by decide)

/-- When the relay loop terminates normally, the parts it accumulated on
top of `acc` carry the consecutive part numbers `pn, pn+1, ...`, one per
non-empty chunk read. -/
theorem relayLoop_ok (ups : Nat → Except PyErr String) :
    ∀ (rs : List (Outcome ByteStr)) (pn : Nat) (acc : List S3Part)
      (tr : List Op) (parts : List S3Part),
      relayLoop ups rs pn acc = (tr, Outcome.ok parts) →
      ∃ extra, parts = acc ++ extra ∧
        extra.map S3Part.partNumber = List.range' pn extra.length ∧
        extra.length = chunksRead rs := by
  intro rs
  induction rs with
  | nil =>
    intro pn acc tr parts h
    simp only [relayLoop, Prod.mk.injEq, Outcome.ok.injEq] at h
    exact ⟨[], by simp [h.2.symm], by simp, by simp [chunksRead]⟩
  | cons r rs ih =>
    intro pn acc tr parts h
    cases r with
    | cancelled => simp [relayLoop] at h
    | exc e => simp [relayLoop] at h
    | ok c =>
      by_cases hc : c.isEmpty
      · simp only [relayLoop, hc, if_true, Prod.mk.injEq, Outcome.ok.injEq] at h
        exact ⟨[], by simp [h.2.symm], by simp, by simp [chunksRead, hc]⟩
      · cases hup : ups pn with
        | error e => simp [relayLoop, hc, hup] at h
        | ok etag =>
          rcases hrec : relayLoop ups rs (pn + 1) (acc ++ [⟨pn, etag⟩]) with ⟨tr', res'⟩
          simp [relayLoop, hc, hup, hrec] at h
          obtain ⟨-, hres⟩ := h
          obtain ⟨extra', hps, hmap, hlen⟩ :=
            ih (pn + 1) (acc ++ [⟨pn, etag⟩]) tr' parts (by rw [hrec, hres])
          refine ⟨⟨pn, etag⟩ :: extra', by simp [hps], ?_, ?_⟩
          · simp only [List.map_cons, hmap, List.length_cons]
            rw [List.range'_succ]
          · simp [chunksRead, hc, hlen, Nat.add_comm]

/-- The relay loop only ever issues reads and part uploads: it never
creates, completes or aborts the multipart upload session itself. -/
theorem relayLoop_ops (ups : Nat → Except PyErr String) :
    ∀ (rs : List (Outcome ByteStr)) (pn : Nat) (acc : List S3Part)
      (op : Op), op ∈ (relayLoop ups rs pn acc).1 →
      op = Op.readCall CHUNK_SIZE ∨ ∃ n b, op = Op.uploadPartOp n b := by
  intro rs
  induction rs with
  | nil =>
    intro pn acc op h
    simp [relayLoop] at h
    exact Or.inl h
  | cons r rs ih =>
    intro pn acc op h
    cases r with
    | cancelled =>
      simp [relayLoop] at h
      exact Or.inl h
    | exc e =>
      simp [relayLoop] at h
      exact Or.inl h
    | ok c =>
      by_cases hc : c.isEmpty
      · simp [relayLoop, hc] at h
        exact Or.inl h
      · cases hup : ups pn with
        | error e =>
          simp [relayLoop, hc, hup] at h
          rcases h with h | h
          · exact Or.inl h
          · exact Or.inr ⟨pn, c, h⟩
        | ok etag =>
          rcases hrec : relayLoop ups rs (pn + 1) (acc ++ [⟨pn, etag⟩]) with ⟨tr', res'⟩
          simp [relayLoop, hc, hup, hrec] at h
          rcases h with h | h | h
          · exact Or.inl h
          · exact Or.inr ⟨pn, c, h⟩
          · exact ih (pn + 1) (acc ++ [⟨pn, etag⟩]) op (by rw [hrec]; exact h)

/-- If the `try:` body's trace contains a `complete` call with parts
`ps`, then the relay loop terminated normally with exactly `ps`. -/
theorem tryBody_complete_mem (env : TransferEnv) (url : String)
    (ps : List S3Part) (h : Op.completeUpload ps ∈ (tryBody env url).1) :
    ∃ tr, relayLoop env.uploadResults env.reads 1 [] = (tr, Outcome.ok ps) := by
  unfold tryBody at h
  split at h
  · simp at h
  · simp at h
  · split at h
    · split at h
      · rename_i tr heq
        simp at h
        rcases relayLoop_ops env.uploadResults env.reads 1 [] _
            (by rw [heq]; exact h) with hl | ⟨n, b, hb⟩
        · exact absurd hl (by simp)
        · exact absurd hb (by simp)
      · rename_i tr e heq
        simp at h
        rcases relayLoop_ops env.uploadResults env.reads 1 [] _
            (by rw [heq]; exact h) with hl | ⟨n, b, hb⟩
        · exact absurd hl (by simp)
        · exact absurd hb (by simp)
      · rename_i tr parts heq
        simp at h
        rcases h with h | h
        · rcases relayLoop_ops env.uploadResults env.reads 1 [] _
              (by rw [heq]; exact h) with hl | ⟨n, b, hb⟩
          · exact absurd hl (by simp)
          · exact absurd hb (by simp)
        · subst h
          exact ⟨tr, heq⟩
    · simp at h

/-- If a full `_stream_to_s3` run's trace contains a `complete` call
with parts `ps`, the relay loop terminated normally with exactly `ps`. -/
theorem streamToS3_complete_mem (env : TransferEnv) (ps : List S3Part)
    (h : Op.completeUpload ps ∈ (streamToS3 env).1) :
    ∃ tr, relayLoop env.uploadResults env.reads 1 [] = (tr, Outcome.ok ps) := by
  unfold streamToS3 at h
  split at h
  · simp at h
  · split at h
    · simp at h
    · rename_i url hu
      split at h
      · simp at h
      · split at h
        · rename_i tr u heq
          simp at h
          exact tryBody_complete_mem env url ps (by rw [heq]; exact h)
        · rename_i tr heq
          simp at h
          exact tryBody_complete_mem env url ps (by rw [heq]; exact h)
        · rename_i tr e heq
          simp at h
          exact tryBody_complete_mem env url ps (by rw [heq]; exact h)

/-- Claim C3: whenever `_stream_to_s3` reaches
`complete_multipart_upload`, the part numbers it submits are exactly
`1..k` with no gaps or repeats, where `k` is the number of non-empty
chunks read — for any read sizes and any file size, including 0-byte
files (`k = 0`, empty parts list) and 1-byte files (`k = 1`). -/
theorem C3_part_numbers_contiguous (env : TransferEnv) (ps : List S3Part)
    (h : Op.completeUpload ps ∈ (streamToS3 env).1) :
    ps.map S3Part.partNumber = List.range' 1 ps.length ∧
      ps.length = chunksRead env.reads := by
  obtain ⟨tr, hrl⟩ := streamToS3_complete_mem env ps h
  obtain ⟨extra, hps, hmap, hlen⟩ :=
    relayLoop_ok env.uploadResults env.reads 1 [] tr ps hrl
  simp only [List.nil_append] at hps
  subst hps
  exact ⟨hmap, hlen⟩

/-- A concrete three-chunk transfer whose completion call carries the
part numbers 1, 2, 3. -/
theorem C3_witness :
    ([⟨1, "e"⟩, ⟨2, "e"⟩, ⟨3, "e"⟩] : List S3Part).map S3Part.partNumber =
        List.range' 1 3 ∧
      ([⟨1, "e"⟩, ⟨2, "e"⟩, ⟨3, "e"⟩] : List S3Part).length =
        chunksRead [Outcome.ok [7], Outcome.ok [8, 9], Outcome.ok [10],
          Outcome.ok []] := by
  have h := C3_part_numbers_contiguous
    { file := ⟨"three.nii", 3, ["s3://b/three.nii"], false⟩
      createResult := Except.ok "uid"
      getStatus := Outcome.ok 200
      reads := [Outcome.ok [7], Outcome.ok [8, 9], Outcome.ok [10], Outcome.ok []]
      uploadResults := fun _ => Except.ok "e"
      completeResult := Except.ok ()
      abortResult := Except.ok () }
    [⟨1, "e"⟩, ⟨2, "e"⟩, ⟨3, "e"⟩] (by decide)
  simpa using h

theorem foldl_plain (b : Bool) :
    ∀ (mid : List Op), plainOps mid →
      ∀ s, mid.foldl (applySessOp b) s = s := by
  intro mid
  induction mid with
  | nil => intro _ s; rfl
  | cons op mid ih =>
    intro h s
    have hop : plainOp op = true := h op (List.mem_cons_self op mid)
    have hstep : applySessOp b s op = s := by
      cases op <;> simp [plainOp] at hop <;> rfl
    rw [List.foldl_cons, hstep]
    exact ih (fun o ho => h o (List.mem_cons_of_mem op ho)) s

/-- With no cancelled read injected, the relay loop never reports
cancellation. -/
theorem relayLoop_not_cancelled (ups : Nat → Except PyErr String) :
    ∀ (rs : List (Outcome ByteStr)) (pn : Nat) (acc : List S3Part),
      (∀ r ∈ rs, r ≠ Outcome.cancelled) →
      (relayLoop ups rs pn acc).2 ≠ Outcome.cancelled := by
  intro rs
  induction rs with
  | nil => intro pn acc _; simp [relayLoop]
  | cons r rs ih =>
    intro pn acc h
    cases r with
    | cancelled => exact absurd rfl (h _ (List.mem_cons_self _ _))
    | exc e => simp [relayLoop]
    | ok c =>
      by_cases hc : c.isEmpty
      · simp [relayLoop, hc]
      · cases hup : ups pn with
        | error e => simp [relayLoop, hc, hup]
        | ok etag =>
          simp only [relayLoop, hc, hup]
          simpa using ih (pn + 1) (acc ++ [⟨pn, etag⟩])
            (fun o ho => h o (List.mem_cons_of_mem _ ho))

/-- The relay trace contains only session-neutral ops. -/
theorem relayLoop_plain (ups : Nat → Except PyErr String)
    (rs : List (Outcome ByteStr)) (pn : Nat) (acc : List S3Part) :
    plainOps (relayLoop ups rs pn acc).1 := by
  intro op hop
  rcases relayLoop_ops ups rs pn acc op hop with rfl | ⟨n, b, rfl⟩ <;> rfl

/-- Shape analysis of the `try:` body when neither awaited operation is
cancelled: it either succeeds having issued `complete`, fails before
issuing `complete`, or fails on the `complete` call itself. -/
theorem tryBody_closes (env : TransferEnv) (url : String)
    (hst : env.getStatus ≠ Outcome.cancelled)
    (hrd : ∀ r ∈ env.reads, r ≠ Outcome.cancelled) :
    (∃ mid ps, tryBody env url =
        (Op.getRequest url :: mid ++ [Op.completeUpload ps], Outcome.ok ()) ∧
        plainOps mid ∧ env.completeResult = Except.ok ()) ∨
    (∃ mid e, tryBody env url = (Op.getRequest url :: mid, Outcome.exc e) ∧
        plainOps mid) ∨
    (∃ mid ps e, tryBody env url =
        (Op.getRequest url :: mid ++ [Op.completeUpload ps], Outcome.exc e) ∧
        plainOps mid ∧ env.completeResult = Except.error e) := by
  unfold tryBody
  cases hs : env.getStatus with
  | cancelled => exact absurd hs hst
  | exc e =>
    exact Or.inr (Or.inl ⟨[], e, rfl, fun o ho => absurd ho (by simp)⟩)
  | ok status =>
    by_cases h200 : status = 200
    · rcases hrl : relayLoop env.uploadResults env.reads 1 [] with ⟨rtr, rres⟩
      cases rres with
      | cancelled =>
        have := relayLoop_not_cancelled env.uploadResults env.reads 1 [] hrd
        rw [hrl] at this
        exact absurd rfl this
      | exc e =>
        refine Or.inr (Or.inl ⟨rtr, e, ?_, ?_⟩)
        · simp [h200, hrl]
        · have := relayLoop_plain env.uploadResults env.reads 1 []
          rw [hrl] at this
          exact this
      | ok ps =>
        have hplain : plainOps rtr := by
          have := relayLoop_plain env.uploadResults env.reads 1 []
          rw [hrl] at this
          exact this
        cases hcm : env.completeResult with
        | ok u =>
          cases u
          refine Or.inl ⟨rtr, ps, ?_, hplain, rfl⟩
          simp [h200, hrl]
        | error e =>
          refine Or.inr (Or.inr ⟨rtr, ps, e, ?_, hplain, rfl⟩)
          simp [h200, hrl]
    · exact Or.inr (Or.inl ⟨[], PyErr.httpError status,
        by simp [h200], fun o ho => absurd ho (by simp)⟩)

/-- Shape analysis of a full `_stream_to_s3` run that opened a session,
with no cancellation: the trace starts with `create`, continues with
session-neutral ops, and closes with `complete` (success), with `abort`
(failure before `complete`), or with `complete` followed by `abort`
(failure of the `complete` call itself). -/
theorem streamToS3_closes (env : TransferEnv) (url uid : String)
    (hdir : env.file.directory = false)
    (hu : chooseUrl env.file.urls = some url)
    (hcr : env.createResult = Except.ok uid)
    (hst : env.getStatus ≠ Outcome.cancelled)
    (hrd : ∀ r ∈ env.reads, r ≠ Outcome.cancelled) :
    (∃ mid ps, streamToS3 env =
        (Op.createUpload :: mid ++ [Op.completeUpload ps], Outcome.ok ()) ∧
        plainOps mid ∧ env.completeResult = Except.ok ()) ∨
    (∃ mid e, streamToS3 env =
        (Op.createUpload :: mid ++ [Op.abortUpload], Outcome.exc e) ∧
        plainOps mid) ∨
    (∃ mid ps e, streamToS3 env =
        (Op.createUpload :: (mid ++ [Op.completeUpload ps]) ++ [Op.abortUpload],
          Outcome.exc e) ∧
        plainOps mid ∧ env.completeResult = Except.error e) := by
  have hs3 : streamToS3 env =
      match tryBody env url with
      | (tr, Outcome.ok u) => (Op.createUpload :: tr, Outcome.ok u)
      | (tr, Outcome.cancelled) => (Op.createUpload :: tr, Outcome.cancelled)
      | (tr, Outcome.exc e) =>
        (Op.createUpload :: (tr ++ [Op.abortUpload]), Outcome.exc e) := by
    simp [streamToS3, hdir, hu, hcr]
  rcases tryBody_closes env url hst hrd with
    ⟨mid, ps, htb, hplain, hcm⟩ | ⟨mid, e, htb, hplain⟩ | ⟨mid, ps, e, htb, hplain, hcm⟩
  · refine Or.inl ⟨Op.getRequest url :: mid, ps, ?_, ?_, hcm⟩
    · rw [hs3, htb]
      simp
    · intro o ho
      rcases List.mem_cons.mp ho with rfl | ho'
      · rfl
      · exact hplain o ho'
  · refine Or.inr (Or.inl ⟨Op.getRequest url :: mid, e, ?_, ?_⟩)
    · rw [hs3, htb]
      simp
    · intro o ho
      rcases List.mem_cons.mp ho with rfl | ho'
      · rfl
      · exact hplain o ho'
  · refine Or.inr (Or.inr ⟨Op.getRequest url :: mid, ps, e, ?_, ?_, hcm⟩)
    · rw [hs3, htb]
      simp
    · intro o ho
      rcases List.mem_cons.mp ho with rfl | ho'
      · rfl
      · exact hplain o ho'

theorem plain_not_abort {op : Op} (h : plainOp op = true) : isAbortOp op = false := by
  cases op <;> simp [plainOp] at h ⊢ <;> rfl

theorem plain_not_complete {op : Op} (h : plainOp op = true) : isCompleteOp op = false := by
  cases op <;> simp [plainOp] at h ⊢ <;> rfl

theorem countP_plain_zero (p : Op → Bool) (hp : ∀ op, plainOp op = true → p op = false)
    (mid : List Op) (hm : plainOps mid) : mid.countP p = 0 :=
  List.countP_eq_zero.mpr (fun a ha => by simp [hp a (hm a ha)])

/-- Claim C2, amended: on every path of `_stream_to_s3` on which a
multipart session is created and no *cancellation* occurs, the task
finishes with exactly one session-concluding terminal call: the trace
ends in `complete` (on success) or `abort` (on any `Exception`), at most
one `abort` and at most one `complete` are ever issued, the session's
final state is terminal (`Completed` or `Aborted`, never `Open`), and
the run succeeds exactly when the `complete` call succeeded.  The
original claim additionally asserted this for cancellation; the
cancellation counterexample shows that path leaves the session `Open`,
because `CancelledError` is not caught by `except Exception:`. -/
theorem C2_terminal_call (env : TransferEnv) (url uid : String)
    (hdir : env.file.directory = false)
    (hu : chooseUrl env.file.urls = some url)
    (hcr : env.createResult = Except.ok uid)
    (hst : env.getStatus ≠ Outcome.cancelled)
    (hrd : ∀ r ∈ env.reads, r ≠ Outcome.cancelled) :
    (finalSess env = SessState.Completed ∨ finalSess env = SessState.Aborted) ∧
    (streamToS3 env).1.countP isAbortOp ≤ 1 ∧
    (streamToS3 env).1.countP isCompleteOp ≤ 1 ∧
    (∃ mid op, (streamToS3 env).1 = mid ++ [op] ∧ isTerminalOp op = true) ∧
    ((streamToS3 env).2 = Outcome.ok () ↔ finalSess env = SessState.Completed) := by
  rcases streamToS3_closes env url uid hdir hu hcr hst hrd with
    ⟨mid, ps, hshape, hplain, hcm⟩ | ⟨mid, e, hshape, hplain⟩ |
    ⟨mid, ps, e, hshape, hplain, hcm⟩
  · have hzA := countP_plain_zero isAbortOp (fun op h => plain_not_abort h) mid hplain
    have hzC := countP_plain_zero isCompleteOp (fun op h => plain_not_complete h) mid hplain
    have hfin : finalSess env = SessState.Completed := by
      simp only [finalSess, hshape, completeOk, hcm, List.foldl_cons, List.foldl_append]
      rw [show applySessOp true SessState.NoSession Op.createUpload = SessState.Open from rfl]
      rw [foldl_plain true mid hplain SessState.Open]
      rfl
    refine ⟨Or.inl hfin, ?_, ?_, ?_, ?_⟩
    · simp [hshape, List.countP_cons, hzA, isAbortOp]
    · simp [hshape, List.countP_cons, hzC, isCompleteOp]
    · exact ⟨Op.createUpload :: mid, Op.completeUpload ps, by simp [hshape], rfl⟩
    · simp [hshape, hfin]
  · have hzA := countP_plain_zero isAbortOp (fun op h => plain_not_abort h) mid hplain
    have hzC := countP_plain_zero isCompleteOp (fun op h => plain_not_complete h) mid hplain
    have hfin : finalSess env = SessState.Aborted := by
      simp only [finalSess, hshape, List.foldl_cons, List.foldl_append]
      rfl
    refine ⟨Or.inr hfin, ?_, ?_, ?_, ?_⟩
    · simp [hshape, List.countP_cons, hzA, isAbortOp]
    · simp [hshape, List.countP_cons, hzC, isCompleteOp]
    · exact ⟨Op.createUpload :: mid, Op.abortUpload, by simp [hshape], rfl⟩
    · constructor
      · intro hok
        rw [hshape] at hok
        simp at hok
      · intro hfin'
        rw [hfin] at hfin'
        simp at hfin'
  · have hzA := countP_plain_zero isAbortOp (fun op h => plain_not_abort h) mid hplain
    have hzC := countP_plain_zero isCompleteOp (fun op h => plain_not_complete h) mid hplain
    have hfin : finalSess env = SessState.Aborted := by
      simp only [finalSess, hshape, List.foldl_cons, List.foldl_append]
      rfl
    refine ⟨Or.inr hfin, ?_, ?_, ?_, ?_⟩
    · simp [hshape, List.countP_cons, List.countP_append, hzA, isAbortOp]
    · simp [hshape, List.countP_cons, List.countP_append, hzC, isCompleteOp]
    · exact ⟨Op.createUpload :: (mid ++ [Op.completeUpload ps]), Op.abortUpload,
        by simp [hshape], rfl⟩
    · constructor
      · intro hok
        rw [hshape] at hok
        simp at hok
      · intro hfin'
        rw [hfin] at hfin'
        simp at hfin'

/-- Counterexample to claim C2 as stated: under cancellation mid-stream,
the session is created but no terminal call (`complete` or `abort`) is
ever issued, and the session is left `Open` when the task finishes. -/
theorem C2_cancellation_leaves_session_open :
    (streamToS3 cancelEnv).2 = Outcome.cancelled ∧
    Op.createUpload ∈ (streamToS3 cancelEnv).1 ∧
    (∀ op ∈ (streamToS3 cancelEnv).1, isTerminalOp op = false) ∧
    finalSess cancelEnv = SessState.Open := by decide

theorem C2_witness :
    (finalSess straightEnv = SessState.Completed ∨
        finalSess straightEnv = SessState.Aborted) ∧
    (streamToS3 straightEnv).1.countP isAbortOp ≤ 1 ∧
    (streamToS3 straightEnv).1.countP isCompleteOp ≤ 1 ∧
    (∃ mid op, (streamToS3 straightEnv).1 = mid ++ [op] ∧ isTerminalOp op = true) ∧
    ((streamToS3 straightEnv).2 = Outcome.ok () ↔
        finalSess straightEnv = SessState.Completed) :=
  C2_terminal_call straightEnv "s3://b/g.nii" "uid" rfl (by decide) rfl
    (by decide) (by decide)

/-- Fault-free relay: with non-empty chunks `cs` followed by an empty
read, and every part upload succeeding, the relay trace is exactly the
strictly alternating read/upload sequence `seqTrace`, and the
accumulated parts are `partsFor`.  The data after the empty read
(`rest`) is never touched. -/
theorem relay_seq (ups : Nat → Except PyErr String) :
    ∀ (cs : List ByteStr) (rest : List (Outcome ByteStr)) (pn : Nat)
      (acc : List S3Part),
      (∀ c ∈ cs, c ≠ []) → (∀ n, ∃ t, ups n = Except.ok t) →
      relayLoop ups (cs.map Outcome.ok ++ Outcome.ok [] :: rest) pn acc =
        (seqTrace pn cs, Outcome.ok (acc ++ partsFor ups pn cs)) := by
  intro cs
  induction cs with
  | nil =>
    intro rest pn acc _ _
    simp [relayLoop, seqTrace, partsFor]
  | cons c cs ih =>
    intro rest pn acc hcs hups
    have hc : c.isEmpty = false := by
      cases c with
      | nil => exact absurd rfl (hcs [] (List.mem_cons_self _ _))
      | cons hd tl => rfl
    obtain ⟨t, ht⟩ := hups pn
    have hrec := ih rest (pn + 1) (acc ++ [⟨pn, t⟩])
      (fun c' h' => hcs c' (List.mem_cons_of_mem _ h')) hups
    simp [relayLoop, hc, ht, hrec, seqTrace, partsFor, List.append_assoc]

/-- Read-failure isolation: once a read fails, the relay touches nothing
after the failing read — its trace and result do not depend on the
remaining source data. -/
theorem relay_read_stop (ups : Nat → Except PyErr String) :
    ∀ (cs : List ByteStr) (e : PyErr) (rest rest' : List (Outcome ByteStr))
      (pn : Nat) (acc : List S3Part),
      relayLoop ups (cs.map Outcome.ok ++ Outcome.exc e :: rest) pn acc =
        relayLoop ups (cs.map Outcome.ok ++ Outcome.exc e :: rest') pn acc := by
  intro cs
  induction cs with
  | nil => intro e rest rest' pn acc; simp [relayLoop]
  | cons c cs ih =>
    intro e rest rest' pn acc
    by_cases hc : c.isEmpty
    · simp [relayLoop, hc]
    · cases hup : ups pn with
      | error e2 => simp [relayLoop, hc, hup]
      | ok t => simp [relayLoop, hc, hup, ih e rest rest' (pn + 1) (acc ++ [⟨pn, t⟩])]

/-- Write-failure isolation: once the part upload for the chunk after
`cs` fails, the relay touches nothing after that chunk — its trace and
result do not depend on the remaining source data. -/
theorem relay_upload_stop (ups : Nat → Except PyErr String) :
    ∀ (cs : List ByteStr) (c : ByteStr) (e : PyErr)
      (rest rest' : List (Outcome ByteStr)) (pn : Nat) (acc : List S3Part),
      ups (pn + cs.length) = Except.error e →
      relayLoop ups (cs.map Outcome.ok ++ Outcome.ok c :: rest) pn acc =
        relayLoop ups (cs.map Outcome.ok ++ Outcome.ok c :: rest') pn acc := by
  intro cs
  induction cs with
  | nil =>
    intro c e rest rest' pn acc hup
    simp only [List.length_nil, Nat.add_zero] at hup
    by_cases hc : c.isEmpty
    · simp [relayLoop, hc]
    · simp [relayLoop, hc, hup]
  | cons c' cs ih =>
    intro c e rest rest' pn acc hup
    have harg : pn + (c' :: cs).length = (pn + 1) + cs.length := by
      simp [List.length_cons]
      omega
    rw [harg] at hup
    by_cases hc' : c'.isEmpty
    · simp [relayLoop, hc']
    · cases hup' : ups pn with
      | error e2 => simp [relayLoop, hc', hup']
      | ok t =>
        simp [relayLoop, hc', hup',
          ih c e rest rest' (pn + 1) (acc ++ [⟨pn, t⟩]) hup]

theorem tryBody_read_limit (env : TransferEnv) (url : String) (l : Nat)
    (h : Op.readCall l ∈ (tryBody env url).1) : l = CHUNK_SIZE := by
  unfold tryBody at h
  split at h
  · simp at h
  · simp at h
  · split at h
    · split at h
      · rename_i tr heq
        simp at h
        rcases relayLoop_ops env.uploadResults env.reads 1 [] _
            (by rw [heq]; exact h) with hl | ⟨n, b, hb⟩
        · simpa using hl
        · exact absurd hb (by simp)
      · rename_i tr e heq
        simp at h
        rcases relayLoop_ops env.uploadResults env.reads 1 [] _
            (by rw [heq]; exact h) with hl | ⟨n, b, hb⟩
        · simpa using hl
        · exact absurd hb (by simp)
      · rename_i tr parts heq
        simp at h
        rcases relayLoop_ops env.uploadResults env.reads 1 [] _
            (by rw [heq]; exact h) with hl | ⟨n, b, hb⟩
        · simpa using hl
        · exact absurd hb (by simp)
    · simp at h

theorem streamToS3_read_limit (env : TransferEnv) (l : Nat)
    (h : Op.readCall l ∈ (streamToS3 env).1) : l = CHUNK_SIZE := by
  unfold streamToS3 at h
  split at h
  · simp at h
  · split at h
    · simp at h
    · rename_i url hu
      split at h
      · simp at h
      · split at h
        · rename_i tr u heq
          simp at h
          exact tryBody_read_limit env url l (by rw [heq]; exact h)
        · rename_i tr heq
          simp at h
          exact tryBody_read_limit env url l (by rw [heq]; exact h)
        · rename_i tr e heq
          simp at h
          exact tryBody_read_limit env url l (by rw [heq]; exact h)

/-- Claim C6: the chunked relay (a) always passes `CHUNK_SIZE` (1 MiB)
as the per-read limit, so at most that many bytes are requested per
read; (b) on a non-success source status it fails with the HTTP error
before any chunk is read (the trace holds no read at all); (c) on a
fault-free source it forwards each non-empty chunk, in order, to the
upload sink before requesting the next chunk, strictly sequentially
(`seqTrace`), and terminates normally on the zero-length read; (d) after
a read failure no further reads or writes are attempted (the behavior is
independent of all source data past the failure); and (e) likewise after
a part-upload (sink) failure. -/
theorem C6_relay_behavior :
    (∀ (env : TransferEnv) (l : Nat),
        Op.readCall l ∈ (streamToS3 env).1 → l = CHUNK_SIZE) ∧
    (∀ (env : TransferEnv) (url uid : String) (s : Nat),
        env.file.directory = false → chooseUrl env.file.urls = some url →
        env.createResult = Except.ok uid → env.getStatus = Outcome.ok s →
        s ≠ 200 →
        streamToS3 env = ([Op.createUpload, Op.getRequest url, Op.abortUpload],
          Outcome.exc (PyErr.httpError s))) ∧
    (∀ (ups : Nat → Except PyErr String) (cs : List ByteStr)
        (rest : List (Outcome ByteStr)) (pn : Nat) (acc : List S3Part),
        (∀ c ∈ cs, c ≠ []) → (∀ n, ∃ t, ups n = Except.ok t) →
        relayLoop ups (cs.map Outcome.ok ++ Outcome.ok [] :: rest) pn acc =
          (seqTrace pn cs, Outcome.ok (acc ++ partsFor ups pn cs))) ∧
    (∀ (ups : Nat → Except PyErr String) (cs : List ByteStr) (e : PyErr)
        (rest rest' : List (Outcome ByteStr)) (pn : Nat) (acc : List S3Part),
        relayLoop ups (cs.map Outcome.ok ++ Outcome.exc e :: rest) pn acc =
          relayLoop ups (cs.map Outcome.ok ++ Outcome.exc e :: rest') pn acc) ∧
    (∀ (ups : Nat → Except PyErr String) (cs : List ByteStr) (c : ByteStr)
        (e : PyErr) (rest rest' : List (Outcome ByteStr)) (pn : Nat)
        (acc : List S3Part),
        ups (pn + cs.length) = Except.error e →
        relayLoop ups (cs.map Outcome.ok ++ Outcome.ok c :: rest) pn acc =
          relayLoop ups (cs.map Outcome.ok ++ Outcome.ok c :: rest') pn acc) := by
  refine ⟨streamToS3_read_limit, ?_, relay_seq, relay_read_stop, relay_upload_stop⟩
  intro env url uid s hdir hu hcr hst hs200
  simp [streamToS3, hdir, hu, hcr, tryBody, hst, hs200]

/-- Concrete instances for the relay-behavior theorem: a 404 status
aborts before any read, and a fault-free one-chunk relay produces the
alternating read/upload trace. -/
theorem C6_witness :
    streamToS3 httpFailEnv =
      ([Op.createUpload, Op.getRequest "s3://b/h.nii", Op.abortUpload],
        Outcome.exc (PyErr.httpError 404)) ∧
    relayLoop (fun _ => Except.ok "e")
        ([[5]].map Outcome.ok ++ Outcome.ok [] :: []) 1 [] =
      (seqTrace 1 [[5]],
        Outcome.ok ([] ++ partsFor (fun _ => Except.ok "e") 1 [[5]])) :=
  ⟨C6_relay_behavior.2.1 httpFailEnv "s3://b/h.nii" "uid" 404 rfl (by decide)
      rfl rfl (by decide),
    C6_relay_behavior.2.2.1 (fun _ => Except.ok "e") [[5]] [] 1 []
      (by decide) (fun n => ⟨"e", rfl⟩)⟩

/-- Claim C9: a non-directory file with an empty `urls` list makes
`_stream_to_s3` raise `IndexError` at `file.urls[0]` (evaluated eagerly
as the default argument of `next`), before the `try:` block, so no
multipart upload session is ever created: the trace is empty.
`IndexError` is none of the spec's named error kinds
(`SourceReadError`, `SinkWriteError`, `SessionOpenError`, ...). -/
theorem C9_empty_urls_index_error (env : TransferEnv)
    (hdir : env.file.directory = false) (hurls : env.file.urls = []) :
    streamToS3 env = ([], Outcome.exc PyErr.indexError) := by
  simp [streamToS3, hdir, hurls, chooseUrl]

/-- A concrete run hitting the empty-`urls` `IndexError`. -/
theorem C9_witness :
    streamToS3
      { file := ⟨"empty.nii", 0, [], false⟩
        createResult := Except.ok "uid"
        getStatus := Outcome.ok 200
        reads := []
        uploadResults := fun _ => Except.ok "etag"
        completeResult := Except.ok ()
        abortResult := Except.ok () } = ([], Outcome.exc PyErr.indexError) :=
  C9_empty_urls_index_error _ rfl rfl

/-- Claim C10: a 0-byte file (first read returns the empty byte string)
performs no `upload_part` call and completes the multipart upload with
an empty parts list — the code resolves the spec's open 0-byte policy
question as "empty completion", never "single empty part". -/
theorem C10_zero_byte_empty_completion (env : TransferEnv) (url uid : String)
    (rest : List (Outcome ByteStr))
    (hdir : env.file.directory = false)
    (hurl : chooseUrl env.file.urls = some url)
    (hcr : env.createResult = Except.ok uid)
    (hst : env.getStatus = Outcome.ok 200)
    (hrd : env.reads = Outcome.ok [] :: rest) :
    (∀ pn b, Op.uploadPartOp pn b ∉ (streamToS3 env).1) ∧
      Op.completeUpload [] ∈ (streamToS3 env).1 ∧
      (∀ ps, Op.completeUpload ps ∈ (streamToS3 env).1 → ps = []) := by
  have hb : tryBody env url =
      ([Op.getRequest url, Op.readCall CHUNK_SIZE, Op.completeUpload []],
        match env.completeResult with
        | .error e => Outcome.exc e
        | .ok _ => Outcome.ok ()) := by
    simp [tryBody, hst, hrd, relayLoop]
  cases hc : env.completeResult with
  | ok u =>
    rw [hc] at hb
    simp [streamToS3, hdir, hurl, hcr, hb]
  | error e =>
    rw [hc] at hb
    simp [streamToS3, hdir, hurl, hcr, hb]

/-- A concrete 0-byte transfer: one empty read, zero parts uploaded,
completion submitted with the empty parts list. -/
theorem C10_witness :
    (∀ pn b, Op.uploadPartOp pn b ∉
        (streamToS3
          { file := ⟨"zero.nii", 0, ["s3://bucket/zero.nii"], false⟩
            createResult := Except.ok "uid"
            getStatus := Outcome.ok 200
            reads := [Outcome.ok []]
            uploadResults := fun _ => Except.ok "etag"
            completeResult := Except.ok ()
            abortResult := Except.ok () }).1) ∧
      Op.completeUpload [] ∈
        (streamToS3
          { file := ⟨"zero.nii", 0, ["s3://bucket/zero.nii"], false⟩
            createResult := Except.ok "uid"
            getStatus := Outcome.ok 200
            reads := [Outcome.ok []]
            uploadResults := fun _ => Except.ok "etag"
            completeResult := Except.ok ()
            abortResult := Except.ok () }).1 ∧
      (∀ ps, Op.completeUpload ps ∈
        (streamToS3
          { file := ⟨"zero.nii", 0, ["s3://bucket/zero.nii"], false⟩
            createResult := Except.ok "uid"
            getStatus := Outcome.ok 200
            reads := [Outcome.ok []]
            uploadResults := fun _ => Except.ok "etag"
            completeResult := Except.ok ()
            abortResult := Except.ok () }).1 → ps = []) :=
  C10_zero_byte_empty_completion _ "s3://bucket/zero.nii" "uid" []
    rfl (by decide) rfl rfl rfl

/-- Claim C4: the retried manifest fetch runs the operation up to
`maxAttempts = 3` times (its behavior depends only on the first three
attempt outcomes), returns the operation's value immediately on the
first success, sleeps `initialDelay * 2^(i-1)` between attempts `i` and
`i+1` (delays `[1]`, `[1, 2]`), and after three failing attempts fails
carrying the last error (the `RetriesExhausted{lastError}` of the spec
is realised by re-raising the last attempt's error). -/
theorem C4_retry_behavior :
    (∀ (α : Type) (op op' : Nat → Except PyErr α),
        (∀ n, n < 3 → op n = op' n) → graphqlQuery op = graphqlQuery op') ∧
    (∀ (α : Type) (op : Nat → Except PyErr α) (a : α),
        op 0 = Except.ok a → graphqlQuery op = ([], Except.ok a)) ∧
    (∀ (α : Type) (op : Nat → Except PyErr α) (e0 : PyErr) (a : α),
        op 0 = Except.error e0 → op 1 = Except.ok a →
        graphqlQuery op = ([1], Except.ok a)) ∧
    (∀ (α : Type) (op : Nat → Except PyErr α) (e0 e1 : PyErr) (a : α),
        op 0 = Except.error e0 → op 1 = Except.error e1 →
        op 2 = Except.ok a → graphqlQuery op = ([1, 2], Except.ok a)) ∧
    (∀ (α : Type) (op : Nat → Except PyErr α) (e0 e1 e2 : PyErr),
        op 0 = Except.error e0 → op 1 = Except.error e1 →
        op 2 = Except.error e2 →
        graphqlQuery op = ([1, 2], Except.error e2)) := by
  refine ⟨?_, ?_, ?_, ?_, ?_⟩
  · intro α op op' hext
    have h0 := hext 0 (by omega)
    have h1 := hext 1 (by omega)
    have h2 := hext 2 (by omega)
    simp [graphqlQuery, retryGo, h0, h1, h2]
  · intro α op a h0
    simp [graphqlQuery, retryGo, h0]
  · intro α op e0 a h0 h1
    simp [graphqlQuery, retryGo, h0, h1]
  · intro α op e0 e1 a h0 h1 h2
    simp [graphqlQuery, retryGo, h0, h1, h2]
  · intro α op e0 e1 e2 h0 h1 h2
    simp [graphqlQuery, retryGo, h0, h1, h2]

/-- Two failing attempts followed by a success: the fetch succeeds
overall, with backoff delays 1 and 2. -/
theorem C4_witness :
    graphqlQuery (fun n => if n < 2 then Except.error (PyErr.exc "boom")
        else Except.ok 42) = ([1, 2], Except.ok 42) :=
  C4_retry_behavior.2.2.2.1 Nat _ (PyErr.exc "boom") (PyErr.exc "boom") 42
    rfl rfl rfl

/-- Claim C5: a single attempt of the manifest fetch fails if and only
if the remote answers a non-success status, or the payload carries an
`errors` entry, or the response cannot be decoded into the FileRecord
shape `{filename, size, urls, directory}`; otherwise it returns the
decoded flat list of file records. -/
theorem C5_attempt_fails_iff (r : GResp) :
    ((∃ e, singleAttempt r = Except.error e) ↔
      (r.status ≠ 200 ∨ hasErrs r.body = true ∨ decodeManifest r.body = none)) ∧
    (∀ fs, r.status = 200 → hasErrs r.body = false →
      decodeManifest r.body = some fs → singleAttempt r = Except.ok fs) := by
  constructor
  · by_cases hs : r.status = 200
    · by_cases herr : hasErrs r.body
      · simp [singleAttempt, hs, herr]
      · cases hd : decodeManifest r.body with
        | none => simp [singleAttempt, hs, herr, hd]
        | some fs => simp [singleAttempt, hs, herr, hd]
    · simp [singleAttempt, hs]
  · intro fs hs herr hd
    simp [singleAttempt, hs, herr, hd]

theorem C5_witness :
    singleAttempt manifestResp = Except.ok [⟨JVal.str "a.txt", JVal.num 3,
      JVal.arr [JVal.str "s3://x"], JVal.boolean false⟩] :=
  (C5_attempt_fails_iff manifestResp).2 _ rfl rfl rfl

theorem gather_ok_iff (rs : List (Outcome Unit)) :
    gatherResults rs = Outcome.ok () ↔ ∀ r ∈ rs, r = Outcome.ok () := by
  induction rs with
  | nil => simp [gatherResults]
  | cons r rs ih =>
    cases r with
    | ok u => cases u; simp [gatherResults, ih]
    | exc e => simp [gatherResults]
    | cancelled => simp [gatherResults]

/-- Counterexample to claim C1 as stated: with one permanently failing
file, `download_dataset` raises instead of returning a per-file result,
and its outcome is bit-for-bit identical whether the sibling file
succeeded or failed — the sibling's outcome is reported nowhere, so no
`DatasetTransferResult` partition of attempted files exists. -/
theorem C1_counterexample :
    downloadDataset
        (Except.ok [⟨"a", 1, ["s3://x/a"], false⟩, ⟨"b", 1, ["s3://x/b"], false⟩])
        (fun f => if f.filename = "a" then Outcome.exc (PyErr.exc "permanent")
          else Outcome.ok ())
      = Outcome.exc (PyErr.exc "permanent") ∧
    downloadDataset
        (Except.ok [⟨"a", 1, ["s3://x/a"], false⟩, ⟨"b", 1, ["s3://x/b"], false⟩])
        (fun f => if f.filename = "a" then Outcome.exc (PyErr.exc "permanent")
          else Outcome.exc (PyErr.exc "sibling also failed"))
      = Outcome.exc (PyErr.exc "permanent") ∧
    Outcome.exc (PyErr.exc "permanent") ≠ (Outcome.ok () : Outcome Unit) := by
  refine ⟨rfl, rfl, by decide⟩

/-- Claim C1, amended: `download_dataset` returns normally exactly when
every scheduled (non-directory) file task succeeds; any single file
failure makes the whole dataset call raise (the first failure to
surface from `asyncio.gather`), with no per-file success/failure
partition returned — and a manifest failure is re-raised as is. -/
theorem C1_gather_first_failure (files : List OpenNeuroFile)
    (outcome : OpenNeuroFile → Outcome Unit) :
    (downloadDataset (Except.ok files) outcome = Outcome.ok () ↔
      ∀ f ∈ files, f.directory = false → outcome f = Outcome.ok ()) ∧
    (∀ e, downloadDataset (Except.error e) outcome = Outcome.exc e) := by
  constructor
  · rw [downloadDataset, gather_ok_iff]
    constructor
    · intro h f hf hd
      exact h (outcome f) (List.mem_map_of_mem outcome
        (List.mem_filter.mpr ⟨hf, by simp [hd]⟩))
    · intro h r hr
      obtain ⟨f, hf, rfl⟩ := List.mem_map.mp hr
      obtain ⟨hfm, hfd⟩ := List.mem_filter.mp hf
      exact h f hfm (by simpa using hfd)
  · intro e
    rfl

theorem C1_witness :
    downloadDataset (Except.ok [⟨"c", 2, ["s3://x/c"], false⟩])
        (fun _ => Outcome.ok ()) = Outcome.ok () :=
  (C1_gather_first_failure [⟨"c", 2, ["s3://x/c"], false⟩]
      (fun _ => Outcome.ok ())).1.mpr (fun _ _ _ => rfl)

/-- Claim C8: at no reachable point of the orchestration are more than
10 (the hard-coded `asyncio.Semaphore(10)` limit) per-file transfer
tasks simultaneously active; the invariant `active + sem = 10` shows
the semaphore alone enforces the bound. -/
theorem C8_concurrency_bound (n : Nat) (s : OrchState)
    (h : OrchReachable n s) : s.active ≤ 10 := by
  have hinv : s.active + s.sem = 10 := by
    induction h with
    | refl => rfl
    | tail hsteps step ih =>
      cases step with
      | start p a d sm => simp at ih ⊢; omega
      | finish p a d sm => simp at ih ⊢; omega
  omega

/-- A reachable state of a 12-file dataset with one task active. -/
theorem C8_witness :
    OrchReachable 12 ⟨11, 1, 0, 9⟩ ∧ (⟨11, 1, 0, 9⟩ : OrchState).active ≤ 10 :=
  have hr : OrchReachable 12 ⟨11, 1, 0, 9⟩ :=
    Relation.ReflTransGen.single (OrchStep.start 11 0 0 9)
  ⟨hr, C8_concurrency_bound 12 _ hr⟩

end OpenNeuro
